import Mathlib

/-!
Verification of the tool-calling agent core of a chat application:
key/value memory storage, HTML document storage, the HTML patch editor,
the tool dispatcher, the agent-loop transcript construction and the
cost ledger.  The definitions are shallow embeddings of the TypeScript
source (the storage module and the agent module); external collaborators
(the LLM provider, the diff-match-patch library, the HTML parser entry
point, JSON.parse and the system clock) are modelled as explicit
parameters or environment streams.
-/

/-- JSON values (the dynamic `any` values flowing through the tools).
Numbers are modelled as rationals; JavaScript NaN is not representable
in this model. -/
inductive Json where
  | null : Json
  | bool : Bool → Json
  | num : ℚ → Json
  | str : String → Json
  | arr : List Json → Json
  | obj : List (String × Json) → Json

/-- JavaScript truthiness of a JSON value: null, false, 0 and the empty
string are falsy, every other value is truthy. -/
def Json.truthy : Json → Bool
  | .null => false
  | .bool b => b
  | .num q => q != 0
  | .str s => s != ""
  | .arr _ => true
  | .obj _ => true

/-- JavaScript property access `j[name]`: field lookup on an object,
yielding null (standing for both null and undefined) when the field is
absent or the value is not an object. -/
def Json.getField (j : Json) (name : String) : Json :=
  match j with
  | .obj fields =>
    match fields.lookup name with
    | some v => v
    | none => Json.null
  | _ => Json.null

/-- Coercion of a JSON value to a string argument; the tool schemas
declare every argument that is used as a string to be of type string,
so non-string shapes are collapsed to the empty string. -/
def Json.asString : Json → String
  | .str s => s
  | _ => ""

def escapeJsonChar (c : Char) : String :=
  if c == '"' then "\\\""
  else if c == '\\' then "\\\\"
  else if c == '\n' then "\\n"
  else String.singleton c

def escapeJsonString (s : String) : String :=
  "\"" ++ String.join (s.toList.map escapeJsonChar) ++ "\""

mutual

/-- JSON serialization (the JSON.stringify calls of the dispatcher;
the optional pretty-printing indent of the source only inserts
whitespace and is not modelled). -/
def Json.stringify : Json → String
  | .null => "null"
  | .bool b => if b then "true" else "false"
  | .num q => toString q
  | .str s => escapeJsonString s
  | .arr elems => "[" ++ stringifyArr elems ++ "]"
  | .obj fields => "\x7b" ++ stringifyObj fields ++ "\x7d"

def stringifyArr : List Json → String
  | [] => ""
  | [x] => Json.stringify x
  | x :: y :: rest => Json.stringify x ++ "," ++ stringifyArr (y :: rest)

def stringifyObj : List (String × Json) → String
  | [] => ""
  | [(k, v)] => escapeJsonString k ++ ":" ++ Json.stringify v
  | (k, v) :: p :: rest =>
    escapeJsonString k ++ ":" ++ Json.stringify v ++ "," ++ stringifyObj (p :: rest)

end

/-- An HTML document record.  The source stores createdAt and updatedAt
as ISO-8601 strings produced from the millisecond clock; since that
rendering is injective and monotone, the two fields are modelled as the
sampled epoch milliseconds themselves. -/
structure HtmlDocument where
  id : String
  content : String
  createdAt : Nat
  updatedAt : Nat
  deriving DecidableEq

/-- The mutable module state of the storage module: the two in-memory
stores and the parsed contents of their two backing JSON files (each
file is rewritten wholesale by writeFileSync on every mutation). -/
structure Store where
  memoryData : List (String × Json)
  memoryFile : List (String × Json)
  htmlDocuments : List HtmlDocument
  htmlDocsFile : List HtmlDocument

/-- The external environment: the upcoming samples of the millisecond
system clock (one per Date.now() / new Date() evaluation) and the
upcoming provider responses (one per chat-completion request, an error
standing for a rejected request). -/
structure World where
  clock : List Nat
  oracle : List (Except String String)

/-- Sample the system clock once (an exhausted sample list yields 0;
the theorems below always provide enough samples). -/
def takeTime (w : World) : Nat × World :=
  match w.clock with
  | [] => (0, w)
  | t :: ts => (t, ⟨ts, w.oracle⟩)

/-- Receive the next provider response (an exhausted response list
stands for an unreachable provider, i.e. a rejected request). -/
def takeLlm (w : World) : Except String String × World :=
  match w.oracle with
  | [] => (Except.error "provider unreachable", w)
  | r :: rest => (r, ⟨w.clock, rest⟩)

/-- JavaScript object assignment `m[k] = v`: overwrite in place if the
key is present, otherwise append (JS objects preserve insertion order
of string keys). -/
def upsert : List (String × Json) → String → Json → List (String × Json)
  | [], k, v => [(k, v)]
  | (k', v') :: rest, k, v =>
    if k' == k then (k, v) :: rest else (k', v') :: upsert rest k v

/-- memoryStorage.read: `memoryData[key] || null` — the JS `||` turns
an absent key and any falsy stored value into null. -/
def memoryStorage.read (st : Store) (key : String) : Json :=
  match st.memoryData.lookup key with
  | some v => if v.truthy then v else Json.null
  | none => Json.null

/-- memoryStorage.write: assign, then persist the whole mapping. -/
def memoryStorage.write (st : Store) (key : String) (value : Json) : Store :=
  let m := upsert st.memoryData key value
  ⟨m, m, st.htmlDocuments, st.htmlDocsFile⟩

/-- memoryStorage.getAll: a snapshot copy of the mapping. -/
def memoryStorage.getAll (st : Store) : List (String × Json) :=
  st.memoryData

/-- htmlDocumentStorage.create: id from `doc-` + Date.now(), then two
further clock samples for createdAt and updatedAt (the source evaluates
`new Date()` separately for each field), append, persist, return. -/
def htmlDocumentStorage.create (content : String) (st : Store) (w : World) :
    HtmlDocument × Store × World :=
  let (tId, w1) := takeTime w
  let (tCreated, w2) := takeTime w1
  let (tUpdated, w3) := takeTime w2
  let doc : HtmlDocument := ⟨"doc-" ++ toString tId, content, tCreated, tUpdated⟩
  let docs := st.htmlDocuments ++ [doc]
  (doc, ⟨st.memoryData, st.memoryFile, docs, docs⟩, w3)

/-- htmlDocumentStorage.get: first document with the given id, or null. -/
def htmlDocumentStorage.get (st : Store) (id : String) : Option HtmlDocument :=
  st.htmlDocuments.find? (fun doc => doc.id == id)

/-- In-place mutation of the first document with the given id (the
source mutates the record returned by Array.find). -/
def updateFirstDoc : List HtmlDocument → String → String → Nat →
    Option HtmlDocument × List HtmlDocument
  | [], _, _, _ => (none, [])
  | d :: ds, id, content, t =>
    if d.id == id then
      let d' : HtmlDocument := ⟨d.id, content, d.createdAt, t⟩
      (some d', d' :: ds)
    else
      let (r, ds') := updateFirstDoc ds id content t
      (r, d :: ds')

/-- htmlDocumentStorage.update: null without any side effect when the
id is absent; otherwise mutate content and updatedAt of the found
record, persist, and return it. -/
def htmlDocumentStorage.update (st : Store) (id : String) (content : String)
    (w : World) : Option HtmlDocument × Store × World :=
  match st.htmlDocuments.find? (fun d => d.id == id) with
  | none => (none, st, w)
  | some _ =>
    let (t, w') := takeTime w
    let (r, docs) := updateFirstDoc st.htmlDocuments id content t
    (r, ⟨st.memoryData, st.memoryFile, docs, docs⟩, w')

/-- htmlDocumentStorage.getAll: a snapshot copy in insertion order. -/
def htmlDocumentStorage.getAll (st : Store) : List HtmlDocument :=
  st.htmlDocuments

/-- The backtick character of the markdown fences. -/
def backtick : Char := Char.ofNat 96

/-- Leading-whitespace removal on a character list (one side of the
String.prototype.trim call). -/
def trimLeadingWs : List Char → List Char
  | [] => []
  | c :: cs => if c.isWhitespace then trimLeadingWs cs else c :: cs

/-- JavaScript String.prototype.trim: whitespace removed at both ends. -/
def jsTrim (s : String) : String :=
  String.mk ((trimLeadingWs ((trimLeadingWs s.toList).reverse)).reverse)

/-- One replace step of the fence cleanup: the case-insensitive anchored
pattern matching three backticks, `html`, and an optional newline at the
start of the string, removed when present. -/
def dropHtmlFence (s : String) : String :=
  match s.toList with
  | b1 :: b2 :: b3 :: c1 :: c2 :: c3 :: c4 :: rest =>
    if b1 == backtick && b2 == backtick && b3 == backtick
        && c1.toLower == 'h' && c2.toLower == 't' && c3.toLower == 'm'
        && c4.toLower == 'l' then
      match rest with
      | '\n' :: rest2 => String.mk rest2
      | _ => String.mk rest
    else s
  | _ => s

/-- One replace step of the fence cleanup: three backticks and an
optional newline at the start of the string, removed when present. -/
def dropBareFence (s : String) : String :=
  match s.toList with
  | b1 :: b2 :: b3 :: rest =>
    if b1 == backtick && b2 == backtick && b3 == backtick then
      match rest with
      | '\n' :: rest2 => String.mk rest2
      | _ => String.mk rest
    else s
  | _ => s

/-- One replace step of the fence cleanup: an optional newline and three
backticks at the end of the string, removed when present. -/
def dropClosingFence (s : String) : String :=
  match s.toList.reverse with
  | b1 :: b2 :: b3 :: rest =>
    if b1 == backtick && b2 == backtick && b3 == backtick then
      match rest with
      | '\n' :: rest2 => String.mk rest2.reverse
      | _ => String.mk rest.reverse
    else s
  | _ => s

/-- The markdown cleanup applied to every provider response used as
HTML: strip a leading html fence, then a leading bare fence, then a
trailing fence, then trim. -/
def stripFences (content : String) : String :=
  jsTrim (dropClosingFence (dropBareFence (dropHtmlFence content)))

/-- The result shape of validateHtml in the source. -/
structure ValidateResult where
  valid : Bool
  error : Option String

/-- validateHtml: wrap the HTML parser entry point, which is modelled
as a function returning the message of the exception it throws on
invalid input (none meaning the parse succeeded). -/
def validateHtml (parse : String → Option String) (htmlString : String) :
    ValidateResult :=
  match parse htmlString with
  | none => ⟨true, none⟩
  | some e => ⟨false, some e⟩

/-- JavaScript optional chaining `error?.message` on the error field of
a validation result. -/
def optMessage : Option String → String
  | some m => m
  | none => "undefined"

/-- The diff-match-patch library, modelled at the granularity of the
two wrappers the source defines over it: generatePatch composes
diff_main, diff_cleanupSemantic, patch_make and patch_toText;
applyPatch composes patch_fromText and patch_apply (the source only
warns when patch_apply reports partially failed hunks, and keeps the
result, so applyPatch is total). -/
structure DiffMatchPatch where
  generatePatch : String → String → String
  applyPatch : String → String → String

/-- editHtmlWithLLM: ask the provider for the edited document (one
chat-completion request, temperature 0), strip markdown fences, compute
the patch from the original to the edited text, re-apply the patch to
the original, and validate; fall back to the raw edited text when the
patched candidate does not parse, and throw an HTML-validation error
carrying the parser message when neither parses.  The provider request
is the next element of the oracle stream; a rejected request propagates
as the error.  The instruction only influences the request payload,
which the oracle abstraction already accounts for. -/
def editHtmlWithLLM (dmp : DiffMatchPatch) (parse : String → Option String)
    (originalHtml : String) (instruction : String) (w : World) :
    Except String (String × String) × World :=
  let (resp, w1) := takeLlm w
  match resp with
  | .error e => (.error e, w1)
  | .ok content =>
    let edited := stripFences content
    let patch := dmp.generatePatch originalHtml edited
    let finalHtml := dmp.applyPatch originalHtml patch
    let validation := validateHtml parse finalHtml
    if validation.valid then
      (.ok (finalHtml, patch), w1)
    else
      let directValidation := validateHtml parse edited
      if directValidation.valid then
        (.ok (edited, patch), w1)
      else
        (.error ("HTML validation failed: " ++ optMessage validation.error), w1)

/-- Modelled from the spec: the static business profile is loaded once
at process start from a configuration file that is not part of the
source tree; its field layout follows the BusinessProfile interface of
the source and the concrete values are configuration data (no claim
depends on them). -/
def businessProfile : Json :=
  Json.obj
    [("companyName", Json.str "TechCorp Solutions"),
     ("industry", Json.str "Technology Consulting"),
     ("founded", Json.str "2020"),
     ("employees", Json.num 150),
     ("headquarters", Json.str "San Francisco"),
     ("description", Json.str "Technology consulting firm"),
     ("services", Json.arr [Json.str "Cloud Migration", Json.str "AI Integration"]),
     ("keyClients", Json.arr [Json.str "Fortune 500 Financial Services"]),
     ("mission", Json.str "Empower businesses through technology"),
     ("values", Json.arr [Json.str "Innovation", Json.str "Integrity"]),
     ("contact", Json.obj
        [("email", Json.str "info@techcorp.example"),
         ("phone", Json.str "555-0100"),
         ("website", Json.str "techcorp.example")])]

/-- The hard-coded placeholder narrative returned by the
read_long_term_memory tool when the requested key is absent. -/
def fakeMemoryStory : String :=
  "This is long-term memory for TechCorp Solutions. \n\nTechCorp Solutions was founded in 2020 with a vision to revolutionize technology consulting. Over the years, the company has grown from a small startup in San Francisco to a thriving organization with 150 employees. \n\nKey milestones in the company\x27s history:\n- 2020: Company founded by a team of former Silicon Valley engineers\n- 2021: Secured first major client, Fortune 500 Financial Services\n- 2022: Expanded services to include AI and Machine Learning integration\n- 2023: Opened new headquarters in San Francisco and reached 100 employees\n- 2024: Launched innovative cloud infrastructure solutions and reached 150 employees\n\nThe company culture is built on four core values: Innovation, Customer-Centricity, Integrity, and Excellence. These values guide every project and client interaction.\n\nTechCorp Solutions has successfully completed over 500 projects, helping mid-market companies transform their technology infrastructure. The company is known for its expertise in cloud migration, AI integration, and digital transformation.\n\nThis long-term memory contains the foundational knowledge about TechCorp Solutions that persists across all conversations. When you need to reference company history, values, or key information, this memory provides the context."

/-- The argument object passed to executeTool, after JSON.parse: one
field per parameter that some tool declares in its schema.  Every
schema parameter except the stored memory value is consumed as a
string. -/
structure ToolArgs where
  key : String
  value : Json
  content : String
  documentId : String
  editDescription : String
  description : String

/-- The JSON rendering of a document record inside a tool result (the
timestamps are rendered from the modelled millisecond clock). -/
def docToJson (d : HtmlDocument) : Json :=
  Json.obj
    [("id", Json.str d.id),
     ("content", Json.str d.content),
     ("createdAt", Json.num d.createdAt),
     ("updatedAt", Json.num d.updatedAt)]

/-- executeTool: the tool dispatcher.  The result is the returned
JSON-encoded string, or an Except.error when the underlying JavaScript
would throw to the caller; the final store and world are returned in
either case (a throw does not roll state back). -/
def executeTool (dmp : DiffMatchPatch) (parse : String → Option String)
    (toolName : String) (args : ToolArgs) (st : Store) (w : World) :
    Except String String × Store × World :=
  match toolName with
  | "read_business_profile" =>
    (.ok (Json.stringify businessProfile), st, w)
  | "read_long_term_memory" =>
    let memoryValue := memoryStorage.read st args.key
    if memoryValue.truthy then
      (.ok (Json.stringify (Json.obj
        [("key", Json.str args.key), ("value", memoryValue)])), st, w)
    else
      (.ok (Json.stringify (Json.obj
        [("key", Json.str args.key),
         ("value", Json.str fakeMemoryStory),
         ("message", Json.str "Long-term memory accessed successfully. This contains foundational information about TechCorp Solutions.")])), st, w)
  | "write_long_term_memory" =>
    let st' := memoryStorage.write st args.key args.value
    (.ok (Json.stringify (Json.obj
      [("success", Json.bool true),
       ("message", Json.str ("Stored value for key: " ++ args.key))])), st', w)
  | "create_html_document" =>
    let (newDoc, st', w') := htmlDocumentStorage.create args.content st w
    (.ok (Json.stringify (Json.obj
      [("success", Json.bool true),
       ("document", docToJson newDoc),
       ("message", Json.str ("Created HTML document with ID: " ++ newDoc.id))])), st', w')
  | "edit_html_document" =>
    match htmlDocumentStorage.get st args.documentId with
    | none =>
      (.ok (Json.stringify (Json.obj
        [("success", Json.bool false),
         ("message", Json.str ("Document with ID " ++ args.documentId ++ " not found"))])), st, w)
    | some existingDoc =>
      -- the try block: any error thrown by the editor is caught and
      -- converted to a soft failure object
      match editHtmlWithLLM dmp parse existingDoc.content args.editDescription w with
      | (.error emsg, w1) =>
        (.ok (Json.stringify (Json.obj
          [("success", Json.bool false),
           ("message", Json.str ("Error editing document: " ++ emsg))])), st, w1)
      | (.ok (updatedHtml, _patch), w1) =>
        let (r, st', w2) := htmlDocumentStorage.update st args.documentId updatedHtml w1
        match r with
        | none =>
          (.ok (Json.stringify (Json.obj
            [("success", Json.bool false),
             ("message", Json.str ("Failed to update document with ID " ++ args.documentId))])), st', w2)
        | some updatedDoc =>
          (.ok (Json.stringify (Json.obj
            [("success", Json.bool true),
             ("document", docToJson updatedDoc),
             ("message", Json.str ("Updated HTML document with ID: " ++ args.documentId ++ ". Made the requested change: " ++ args.editDescription))])), st', w2)
  | "list_html_documents" =>
    let docs := htmlDocumentStorage.getAll st
    (.ok (Json.stringify (Json.obj
      [("documents", Json.arr (docs.map (fun doc => Json.obj
        [("id", Json.str doc.id),
         ("createdAt", Json.num doc.createdAt),
         ("updatedAt", Json.num doc.updatedAt)])))])), st, w)
  | "generate_html_with_llm" =>
    -- the provider request is NOT wrapped in a try block: a rejected
    -- request propagates to the caller of executeTool
    let (resp, w1) := takeLlm w
    match resp with
    | .error e => (.error e, st, w1)
    | .ok content =>
      let generatedHtml := stripFences content
      let (generatedDoc, st', w2) := htmlDocumentStorage.create generatedHtml st w1
      (.ok (Json.stringify (Json.obj
        [("success", Json.bool true),
         ("document", docToJson generatedDoc),
         ("message", Json.str ("Generated and created HTML document with ID: " ++ generatedDoc.id))])), st', w2)
  | _ =>
    (.ok (Json.stringify (Json.obj
      [("error", Json.str ("Unknown tool: " ++ toolName))])), st, w)

/-- A per-million-token price pair of the static price table. -/
structure Pricing where
  input : ℚ
  output : ℚ

/-- The static PRICING table of the source. -/
def PRICING : List (String × Pricing) :=
  [("gpt-4o-mini", ⟨0.15, 0.60⟩),
   ("gpt-3.5-turbo", ⟨0.50, 1.50⟩),
   ("gpt-4-turbo-preview", ⟨10, 30⟩),
   ("gpt-4-turbo", ⟨10, 30⟩),
   ("gpt-4", ⟨30, 60⟩)]

def MODEL_NAME : String := "gpt-4o-mini"

/-- The pricing chosen by runAgent: the active model row of the table,
falling back to the gpt-4o-mini row. -/
def modelPricing : Pricing :=
  match PRICING.lookup MODEL_NAME with
  | some pr => pr
  | none => ⟨0.15, 0.60⟩

/-- Number.prototype.toFixed(6) followed by parseFloat, on the exact
rationals of this model: rounding to six decimal places. -/
def round6 (x : ℚ) : ℚ :=
  (((x * 1000000 + 1 / 2).floor : ℤ) : ℚ) / 1000000

/-- The token usage reported by one chat-completion response. -/
structure Usage where
  promptTokens : Nat
  completionTokens : Nat

/-- One entry of the per-call cost ledger. -/
structure CallCost where
  callNumber : Nat
  promptTokens : Nat
  completionTokens : Nat
  cost : ℚ

/-- The cost of one model call as computed by trackCallCost:
prompt / 1e6 times the input price plus completion / 1e6 times the
output price, rounded to six decimals. -/
def callCost (pricing : Pricing) (u : Usage) : ℚ :=
  round6 ((u.promptTokens : ℚ) / 1000000 * pricing.input
    + (u.completionTokens : ℚ) / 1000000 * pricing.output)

/-- The ledger built by the successive trackCallCost calls of one
runAgent invocation: one record per model call, numbered from n + 1
(runAgent starts the counter at zero). -/
def trackCalls (pricing : Pricing) : Nat → List Usage → List CallCost
  | _, [] => []
  | n, u :: rest =>
    ⟨n + 1, u.promptTokens, u.completionTokens, callCost pricing u⟩ ::
      trackCalls pricing (n + 1) rest

/-- The aggregate totalCost of runAgent: the reduce-sum of the per-call
costs, passed once more through toFixed(6)/parseFloat. -/
def totalCost (callCosts : List CallCost) : ℚ :=
  round6 (callCosts.foldl (fun sum call => sum + call.cost) 0)

/-- Chat message roles. -/
inductive Role where
  | system
  | user
  | assistant
  | tool
  deriving DecidableEq

/-- One tool invocation requested by (or fabricated for) an assistant
turn; arguments is the raw JSON text. -/
structure ToolCall where
  id : String
  name : String
  arguments : String
  deriving DecidableEq

/-- One entry of the transcript sent to the provider. -/
structure ChatMsg where
  role : Role
  content : Option String
  tool_calls : List ToolCall
  tool_call_id : Option String
  deriving DecidableEq

/-- One entry of the incoming request transcript (the source type
restricts the role to user or assistant). -/
structure InputMsg where
  role : Role
  content : String
  deriving DecidableEq

/-- The system directive prepended by runAgent. -/
def systemInstruction : String :=
  "You are a helpful business assistant that works with TechCorp Solutions.\n\nYou should:\n1. Always read the business profile when starting a conversation\n2. Use long-term memory to remember important information across conversations\n3. Help create and edit HTML documents as needed\n4. Be conversational and helpful\n\nThe business profile contains information about TechCorp Solutions. Use it to answer questions about the company."

/-- The incoming-transcript test of runAgent: exactly one message and
its role is user. -/
def isNewConversation (messages : List InputMsg) : Bool :=
  messages.length == 1 &&
    (match messages with
     | m :: _ => m.role == Role.user
     | [] => false)

/-- The embedding of an incoming message into the provider transcript. -/
def inputToChat (m : InputMsg) : ChatMsg :=
  ⟨m.role, some m.content, [], none⟩

/-- The transcript runAgent assembles before its first model call:
the system directive, then — only for a new conversation — a
fabricated assistant tool-call turn invoking read_business_profile and
its tool-result turn carrying profileResult, then the incoming
messages. -/
def buildInitialMessages (profileResult : String) (messages : List InputMsg) :
    List ChatMsg :=
  let base : List ChatMsg := [⟨Role.system, some systemInstruction, [], none⟩]
  let withInit :=
    if isNewConversation messages then
      base ++
        [⟨Role.assistant, none,
          [⟨"call_init_business_profile", "read_business_profile", "\x7b\x7d"⟩], none⟩,
         ⟨Role.tool, some profileResult, [], some "call_init_business_profile"⟩]
    else base
  withInit ++ messages.map inputToChat

/-- The transcript of the first model call of runAgent; the injected
profile result is the value executeTool returns for
read_business_profile, namely the serialized business profile. -/
def runAgentInitialMessages (messages : List InputMsg) : List ChatMsg :=
  buildInitialMessages (Json.stringify businessProfile) messages

/-- The argument object executeTool receives for a tool call: the
parsed JSON of the arguments text, read field by field. -/
def argsOfJson (j : Json) : ToolArgs :=
  ⟨(j.getField "key").asString,
   j.getField "value",
   (j.getField "content").asString,
   (j.getField "documentId").asString,
   (j.getField "editDescription").asString,
   (j.getField "description").asString⟩

/-- The guarded documentId extraction of the tool loop: for the three
document-producing tools, parse the tool result and keep
result.document.id when both the document field and its id are truthy;
any parse failure is caught and ignored. -/
def extractDocumentId (jsonParse : String → Except String Json)
    (toolName : String) (result : String) (documentId : Option Json) :
    Option Json :=
  if toolName == "create_html_document" || toolName == "edit_html_document"
      || toolName == "generate_html_with_llm" then
    match jsonParse result with
    | .error _ => documentId
    | .ok resultObj =>
      if ((resultObj.getField "document").truthy
          && ((resultObj.getField "document").getField "id").truthy) then
        some ((resultObj.getField "document").getField "id")
      else documentId
  else documentId

/-- The body of one ExecutingTools iteration of runAgent: for each
requested tool call in request order, JSON.parse the arguments text
(unguarded — a parse failure throws and aborts the request), dispatch
through executeTool (whose own throw likewise aborts), note any
surfaced document id, and collect the tool-result turns; the collected
turns are appended to the transcript only when every call of the batch
completed. -/
def processToolCalls (dmp : DiffMatchPatch) (parse : String → Option String)
    (jsonParse : String → Except String Json) :
    List ToolCall → Store → World → Option Json →
    Except String (List ChatMsg × Option Json) × Store × World
  | [], st, w, documentId => (.ok ([], documentId), st, w)
  | toolCall :: rest, st, w, documentId =>
    match jsonParse toolCall.arguments with
    | .error e => (.error e, st, w)
    | .ok argsJson =>
      match executeTool dmp parse toolCall.name (argsOfJson argsJson) st w with
      | (.error e, st1, w1) => (.error e, st1, w1)
      | (.ok result, st1, w1) =>
        let documentId1 := extractDocumentId jsonParse toolCall.name result documentId
        match processToolCalls dmp parse jsonParse rest st1 w1 documentId1 with
        | (.ok (msgs, docId2), st2, w2) =>
          (.ok (⟨Role.tool, some result, [], some toolCall.id⟩ :: msgs, docId2), st2, w2)
        | (.error e, st2, w2) => (.error e, st2, w2)

/-! ## Helper lemmas -/

theorem upsert_lookup (m : List (String × Json)) (k : String) (v : Json) :
    (upsert m k v).lookup k = some v := by
  induction m with
  | nil => simp [upsert, List.lookup]
  | cons kv rest ih =>
    rcases kv with ⟨k', v'⟩
    by_cases h : k' = k
    · simp [upsert, h, List.lookup]
    · have h1 : (k' == k) = false := beq_eq_false_iff_ne.mpr h
      have h2 : (k == k') = false := beq_eq_false_iff_ne.mpr (Ne.symm h)
      simp [upsert, h1, h2, List.lookup, ih]

theorem updateFirstDoc_of_find (docs : List HtmlDocument) (id c2 : String) (t : Nat)
    (doc : HtmlDocument) (h : docs.find? (fun d => d.id == id) = some doc) :
    (updateFirstDoc docs id c2 t).1 = some ⟨doc.id, c2, doc.createdAt, t⟩ := by
  induction docs with
  | nil => simp at h
  | cons d ds ih =>
    by_cases hd : (d.id == id) = true
    · simp only [List.find?, hd] at h
      obtain rfl : d = doc := by injection h
      simp [updateFirstDoc, hd]
    · rw [Bool.not_eq_true] at hd
      simp only [List.find?, hd] at h
      simp [updateFirstDoc, hd, ih h]

theorem round6_eq_floor (x : ℚ) :
    round6 x = ((⌊x * 1000000 + 1 / 2⌋ : ℤ) : ℚ) / 1000000 := by
  unfold round6
  rw [Rat.floor_def', ← Rat.floor_def]

theorem round6_int_div (n : ℤ) : round6 ((n : ℚ) / 1000000) = (n : ℚ) / 1000000 := by
  rw [round6_eq_floor, div_mul_cancel₀ _ (by norm_num : (1000000 : ℚ) ≠ 0), Int.floor_int_add]
  have h : ⌊(1 / 2 : ℚ)⌋ = 0 := by
    rw [Int.floor_eq_iff]
    constructor <;> norm_num
  rw [h, add_zero]

theorem exists_int_round6 (x : ℚ) : ∃ n : ℤ, round6 x = (n : ℚ) / 1000000 :=
  ⟨⌊x * 1000000 + 1 / 2⌋, round6_eq_floor x⟩

theorem trackCalls_cost_shape (pricing : Pricing) :
    ∀ (usages : List Usage) (n : Nat), ∀ cc ∈ trackCalls pricing n usages,
      ∃ k : ℤ, cc.cost = (k : ℚ) / 1000000 := by
  intro usages
  induction usages with
  | nil => intro n cc hcc; simp [trackCalls] at hcc
  | cons u rest ih =>
    intro n cc hcc
    rw [trackCalls] at hcc
    rcases List.mem_cons.mp hcc with h | h
    · subst h
      exact exists_int_round6 _
    · exact ih (n + 1) cc h

theorem foldl_cost_int :
    ∀ (l : List CallCost) (acc : ℚ),
      (∀ cc ∈ l, ∃ k : ℤ, cc.cost = (k : ℚ) / 1000000) →
      (∃ m : ℤ, acc = (m : ℚ) / 1000000) →
      ∃ s : ℤ, l.foldl (fun sum call => sum + call.cost) acc = (s : ℚ) / 1000000 := by
  intro l
  induction l with
  | nil => intro acc _ hacc; exact hacc
  | cons c rest ih =>
    intro acc hl hacc
    obtain ⟨k, hk⟩ := hl c (List.mem_cons_self c rest)
    obtain ⟨m, hm⟩ := hacc
    rw [List.foldl_cons]
    exact ih (acc + c.cost) (fun cc h => hl cc (List.mem_cons_of_mem c h))
      ⟨m + k, by rw [hm, hk]; push_cast; ring⟩

theorem totalCost_eq_sum (pricing : Pricing) (n : Nat) (usages : List Usage) :
    totalCost (trackCalls pricing n usages) =
      (trackCalls pricing n usages).foldl (fun sum call => sum + call.cost) 0 := by
  obtain ⟨s, hs⟩ := foldl_cost_int (trackCalls pricing n usages) 0
    (trackCalls_cost_shape pricing usages n) ⟨0, by norm_num⟩
  rw [totalCost, hs, round6_int_div]

theorem callCost_eval_1000_500 : callCost modelPricing ⟨1000, 500⟩ = 0.00045 := by
  have harg : (↑(1000 : ℕ) : ℚ) / 1000000 * modelPricing.input
      + (↑(500 : ℕ) : ℚ) / 1000000 * modelPricing.output = ((450 : ℤ) : ℚ) / 1000000 := by
    show (1000 : ℚ) / 1000000 * 0.15 + (500 : ℚ) / 1000000 * 0.60 = ((450 : ℤ) : ℚ) / 1000000
    norm_num
  rw [callCost]
  rw [show ((⟨1000, 500⟩ : Usage).promptTokens : ℚ) = ((1000 : ℕ) : ℚ) from rfl]
  rw [show ((⟨1000, 500⟩ : Usage).completionTokens : ℚ) = ((500 : ℕ) : ℚ) from rfl]
  rw [harg, round6_int_div]
  norm_num

theorem callCost_eval_200_100 : callCost modelPricing ⟨200, 100⟩ = 0.00009 := by
  have harg : (↑(200 : ℕ) : ℚ) / 1000000 * modelPricing.input
      + (↑(100 : ℕ) : ℚ) / 1000000 * modelPricing.output = ((90 : ℤ) : ℚ) / 1000000 := by
    show (200 : ℚ) / 1000000 * 0.15 + (100 : ℚ) / 1000000 * 0.60 = ((90 : ℤ) : ℚ) / 1000000
    norm_num
  rw [callCost]
  rw [show ((⟨200, 100⟩ : Usage).promptTokens : ℚ) = ((200 : ℕ) : ℚ) from rfl]
  rw [show ((⟨200, 100⟩ : Usage).completionTokens : ℚ) = ((100 : ℕ) : ℚ) from rfl]
  rw [harg, round6_int_div]
  norm_num

theorem trackCalls_scenario_costs :
    (trackCalls modelPricing 0 [⟨1000, 500⟩, ⟨200, 100⟩]).map CallCost.cost =
      [0.00045, 0.00009] := by
  show [callCost modelPricing ⟨1000, 500⟩, callCost modelPricing ⟨200, 100⟩] = _
  rw [callCost_eval_1000_500, callCost_eval_200_100]

theorem totalCost_scenario :
    totalCost (trackCalls modelPricing 0 [⟨1000, 500⟩, ⟨200, 100⟩]) = 0.00054 := by
  rw [totalCost_eq_sum]
  show 0 + callCost modelPricing ⟨1000, 500⟩ + callCost modelPricing ⟨200, 100⟩ = _
  rw [callCost_eval_1000_500, callCost_eval_200_100]
  norm_num

theorem callCost_formula (pricing : Pricing) (p c : Nat) :
    callCost pricing ⟨p, c⟩ =
      round6 ((p : ℚ) * pricing.input / 1000000 + (c : ℚ) * pricing.output / 1000000) := by
  rw [callCost]
  exact congrArg round6 (by ring)

/-! ## Claim theorems -/

/-- C1 (counterexample): executeTool does not always return a
JSON-encoded string to its caller — dispatching generate_html_with_llm
while the provider rejects the request makes executeTool itself raise
that provider error, here at a concrete store, argument object and
environment. -/
theorem executeTool_generate_provider_failure_raises :
    (executeTool ⟨fun _ b => b, fun _ q => q⟩ (fun _ => none) "generate_html_with_llm"
      ⟨"", Json.null, "", "", "", ""⟩ ⟨[], [], [], []⟩
      ⟨[], [Except.error "provider failure"]⟩).1 = Except.error "provider failure" :=
  rfl

/-- C1 (amended): for every tool name and argument object, executeTool
returns a JSON-encoded string and never raises — except that a provider
failure inside generate_html_with_llm propagates to the caller; whenever
the tool is not generate_html_with_llm, or the provider call succeeds,
the result is Except.ok of a serialized JSON value. -/
theorem executeTool_json_result_unless_generate_provider_failure
    (dmp : DiffMatchPatch) (parse : String → Option String)
    (toolName : String) (args : ToolArgs) (st : Store) (w : World)
    (hgen : toolName = "generate_html_with_llm" →
      ∃ s rest, w.oracle = Except.ok s :: rest) :
    ∃ j st' w', executeTool dmp parse toolName args st w =
      (Except.ok (Json.stringify j), st', w') := by
  rw [executeTool.eq_def]
  split
  · exact ⟨_, _, _, rfl⟩
  · by_cases hm : (memoryStorage.read st args.key).truthy = true
    · exact ⟨_, _, _, by rw [if_pos hm]⟩
    · exact ⟨_, _, _, by rw [if_neg hm]⟩
  · exact ⟨_, _, _, rfl⟩
  · exact ⟨_, _, _, rfl⟩
  · split
    · exact ⟨_, _, _, rfl⟩
    · split
      · exact ⟨_, _, _, rfl⟩
      · split
        split
        · exact ⟨_, _, _, rfl⟩
        · exact ⟨_, _, _, rfl⟩
  · exact ⟨_, _, _, rfl⟩
  · obtain ⟨s, rest, hw⟩ := hgen rfl
    rcases w with ⟨clock, oracle⟩
    simp only at hw
    subst hw
    exact ⟨_, _, _, rfl⟩
  · exact ⟨_, _, _, rfl⟩

/-- C1 (witness): the amended theorem applied to the
generate_html_with_llm dispatch with a succeeding provider. -/
theorem executeTool_json_result_witness :
    ∃ j st' w', executeTool ⟨fun _ b => b, fun _ q => q⟩ (fun _ => none)
      "generate_html_with_llm" ⟨"", Json.null, "", "", "", ""⟩ ⟨[], [], [], []⟩
      ⟨[1, 2, 3], [Except.ok "Hi"]⟩ = (Except.ok (Json.stringify j), st', w') :=
  executeTool_json_result_unless_generate_provider_failure _ _ _ _ _ _
    (fun _ => ⟨"Hi", [], rfl⟩)

/-- C2 (counterexample): the write/read round trip fails for the stored
value false — `memoryData[key] || null` collapses every falsy stored
value to null, so read returns null rather than the written value. -/
theorem memoryStorage_roundtrip_fails_for_falsy_value :
    memoryStorage.read (memoryStorage.write ⟨[], [], [], []⟩ "k" (Json.bool false)) "k" =
      Json.null ∧
    Json.null ≠ Json.bool false :=
  ⟨rfl, fun h => Json.noConfusion h⟩

/-- C2 (amended): for every key k and truthy JSON value v, write(k, v)
followed by read(k) returns v (for a falsy v the read collapses to
null); getAll() after the write always contains the pair k maps-to v;
and read of an absent key returns null rather than failing. -/
theorem memoryStorage_write_read_getAll (st : Store) (k : String) (v : Json) :
    (v.truthy = true → memoryStorage.read (memoryStorage.write st k v) k = v) ∧
    (memoryStorage.getAll (memoryStorage.write st k v)).lookup k = some v ∧
    (st.memoryData.lookup k = none → memoryStorage.read st k = Json.null) := by
  refine ⟨fun hv => ?_, ?_, fun habs => ?_⟩
  · simp [memoryStorage.read, memoryStorage.write, upsert_lookup, hv]
  · exact upsert_lookup st.memoryData k v
  · rw [memoryStorage.read, habs]

/-- C2 (witness): the amended theorem applied to the empty store, the
key k and the truthy value "hello". -/
theorem memoryStorage_write_read_getAll_witness :
    memoryStorage.read (memoryStorage.write ⟨[], [], [], []⟩ "k" (Json.str "hello")) "k" =
      Json.str "hello" ∧
    (memoryStorage.getAll (memoryStorage.write ⟨[], [], [], []⟩ "k"
      (Json.str "hello"))).lookup "k" = some (Json.str "hello") ∧
    memoryStorage.read ⟨[], [], [], []⟩ "k" = Json.null :=
  ⟨(memoryStorage_write_read_getAll ⟨[], [], [], []⟩ "k" (Json.str "hello")).1 rfl,
   (memoryStorage_write_read_getAll ⟨[], [], [], []⟩ "k" (Json.str "hello")).2.1,
   (memoryStorage_write_read_getAll ⟨[], [], [], []⟩ "k" (Json.str "hello")).2.2 rfl⟩

/-- C3 (counterexample): two consecutive create calls performed within
the same clock millisecond allocate the same identifier doc-0, and the
store then holds two documents with one identifier — the id is derived
from Date.now() alone, so it is not fresh within a millisecond. -/
theorem htmlDocumentStorage_create_id_collision :
    (htmlDocumentStorage.create "a" ⟨[], [], [], []⟩ ⟨[0, 0, 0, 0, 0, 0], []⟩).1.id =
      "doc-0" ∧
    (htmlDocumentStorage.create "b"
      (htmlDocumentStorage.create "a" ⟨[], [], [], []⟩ ⟨[0, 0, 0, 0, 0, 0], []⟩).2.1
      (htmlDocumentStorage.create "a" ⟨[], [], [], []⟩ ⟨[0, 0, 0, 0, 0, 0], []⟩).2.2).1.id =
      "doc-0" ∧
    ((htmlDocumentStorage.create "b"
      (htmlDocumentStorage.create "a" ⟨[], [], [], []⟩ ⟨[0, 0, 0, 0, 0, 0], []⟩).2.1
      (htmlDocumentStorage.create "a" ⟨[], [], [], []⟩ ⟨[0, 0, 0, 0, 0, 0], []⟩).2.2).2.1.htmlDocuments.map
        HtmlDocument.id) = ["doc-0", "doc-0"] :=
  ⟨rfl, rfl, rfl⟩

/-- C3 (amended): create allocates the identifier doc-t from the
current clock millisecond t; whenever no already-stored document
carries that identifier — in particular when every earlier create
happened at a strictly earlier millisecond — the new identifier is
distinct from every identifier already in the store, the new document
is appended, and identifier uniqueness of the store is preserved. -/
theorem htmlDocumentStorage_create_fresh_id (content : String) (st : Store) (t : Nat)
    (ts : List Nat) (orc : List (Except String String))
    (hfresh : ∀ d ∈ st.htmlDocuments, d.id ≠ "doc-" ++ toString t) :
    (htmlDocumentStorage.create content st ⟨t :: ts, orc⟩).1.id = "doc-" ++ toString t ∧
    (htmlDocumentStorage.create content st ⟨t :: ts, orc⟩).1.id ∉
      st.htmlDocuments.map HtmlDocument.id ∧
    (htmlDocumentStorage.create content st ⟨t :: ts, orc⟩).2.1.htmlDocuments =
      st.htmlDocuments ++ [(htmlDocumentStorage.create content st ⟨t :: ts, orc⟩).1] ∧
    ((st.htmlDocuments.map HtmlDocument.id).Nodup →
      ((htmlDocumentStorage.create content st ⟨t :: ts, orc⟩).2.1.htmlDocuments.map
        HtmlDocument.id).Nodup) := by
  have hid : (htmlDocumentStorage.create content st ⟨t :: ts, orc⟩).1.id =
      "doc-" ++ toString t := rfl
  have hdocs : (htmlDocumentStorage.create content st ⟨t :: ts, orc⟩).2.1.htmlDocuments =
      st.htmlDocuments ++ [(htmlDocumentStorage.create content st ⟨t :: ts, orc⟩).1] := rfl
  have hnotmem : (htmlDocumentStorage.create content st ⟨t :: ts, orc⟩).1.id ∉
      st.htmlDocuments.map HtmlDocument.id := by
    rw [hid]
    intro hmem
    obtain ⟨d, hd, hdid⟩ := List.mem_map.mp hmem
    exact hfresh d hd hdid
  refine ⟨hid, hnotmem, hdocs, fun hnd => ?_⟩
  rw [hdocs, List.map_append, List.nodup_append]
  refine ⟨hnd, List.nodup_singleton _, ?_⟩
  intro x hx hy
  simp only [List.map_cons, List.map_nil, List.mem_singleton] at hy
  subst hy
  exact hnotmem hx

/-- C3 (witness): the amended theorem applied to a store holding one
document created at millisecond 0, with the clock now at millisecond 1. -/
theorem htmlDocumentStorage_create_fresh_id_witness :
    (htmlDocumentStorage.create "x"
      ⟨[], [], [⟨"doc-0", "old", 0, 0⟩], [⟨"doc-0", "old", 0, 0⟩]⟩ ⟨[1, 1, 1], []⟩).1.id =
      "doc-" ++ toString 1 ∧
    (htmlDocumentStorage.create "x"
      ⟨[], [], [⟨"doc-0", "old", 0, 0⟩], [⟨"doc-0", "old", 0, 0⟩]⟩ ⟨[1, 1, 1], []⟩).1.id ∉
      ([⟨"doc-0", "old", 0, 0⟩] : List HtmlDocument).map HtmlDocument.id ∧
    ((htmlDocumentStorage.create "x"
      ⟨[], [], [⟨"doc-0", "old", 0, 0⟩], [⟨"doc-0", "old", 0, 0⟩]⟩
      ⟨[1, 1, 1], []⟩).2.1.htmlDocuments.map HtmlDocument.id).Nodup :=
  have h := htmlDocumentStorage_create_fresh_id "x"
    ⟨[], [], [⟨"doc-0", "old", 0, 0⟩], [⟨"doc-0", "old", 0, 0⟩]⟩ 1 [1, 1] []
    (by intro d hd; simp only [List.mem_singleton] at hd; subst hd; decide)
  ⟨h.1, h.2.1, h.2.2.2 (by decide)⟩

/-- C4: whenever editHtmlWithLLM returns a pair (updatedHtml, patch)
— through the main branch or the raw-text fallback branch — applying
the returned patch to the declared original reproduces updatedHtml
exactly, given the documented contract of the diff-match-patch library
that re-applying a freshly made patch to its unmodified original yields
the modified text (under that contract the fallback branch, whose
returned content bypasses the patch, can only be reached when the
patched candidate equals the raw text anyway). -/
theorem editHtmlWithLLM_patch_reproduces_result (dmp : DiffMatchPatch)
    (parse : String → Option String) (originalHtml instruction : String) (w : World)
    (u p : String) (w' : World)
    (hrt : ∀ a b, dmp.applyPatch a (dmp.generatePatch a b) = b)
    (h : editHtmlWithLLM dmp parse originalHtml instruction w = (Except.ok (u, p), w')) :
    dmp.applyPatch originalHtml p = u := by
  rcases w with ⟨clock, oracle⟩
  rcases oracle with _ | ⟨r, rest⟩
  · simp [editHtmlWithLLM, takeLlm] at h
  · rcases r with e | content
    · simp [editHtmlWithLLM, takeLlm] at h
    · simp only [editHtmlWithLLM, takeLlm] at h
      rw [hrt originalHtml (stripFences content)] at h
      rcases hp : parse (stripFences content) with _ | perr
      · simp only [validateHtml, hp] at h
        obtain ⟨h1, h2⟩ : stripFences content = u ∧
            dmp.generatePatch originalHtml (stripFences content) = p := by
          refine ⟨?_, ?_⟩ <;> [skip; skip] <;>
            · injection h with h1 h2
              injection h1 with h3
              first
              | exact congrArg Prod.fst h3
              | exact congrArg Prod.snd h3
        rw [← h1, ← h2, hrt]
      · simp [validateHtml, hp] at h

/-- C4 (witness): the theorem applied to a concrete patch engine
satisfying the round-trip contract and a provider response "Hi". -/
theorem editHtmlWithLLM_patch_reproduces_result_witness :
    (⟨fun _ b => b, fun _ q => q⟩ : DiffMatchPatch).applyPatch "orig" "Hi" = "Hi" :=
  editHtmlWithLLM_patch_reproduces_result ⟨fun _ b => b, fun _ q => q⟩ (fun _ => none)
    "orig" "make it nice" ⟨[], [Except.ok "Hi"]⟩ "Hi" "Hi" ⟨[], []⟩
    (fun _ _ => rfl) rfl

/-- C5: when the document exists, the provider responds, and both the
patched candidate and the raw edited text fail HTML validation,
edit_html_document returns a success-false soft-failure object whose
message carries the parse error of the patched candidate and is
non-empty, and the store — documents, memory and both persisted
files — is returned unchanged. -/
theorem edit_html_document_soft_failure_on_invalid_html (dmp : DiffMatchPatch)
    (parse : String → Option String) (args : ToolArgs) (st : Store) (clock : List Nat)
    (resp : String) (orc : List (Except String String)) (doc : HtmlDocument)
    (perr qerr : String)
    (hdoc : htmlDocumentStorage.get st args.documentId = some doc)
    (hpatched : parse (dmp.applyPatch doc.content
      (dmp.generatePatch doc.content (stripFences resp))) = some perr)
    (hraw : parse (stripFences resp) = some qerr) :
    executeTool dmp parse "edit_html_document" args st ⟨clock, Except.ok resp :: orc⟩ =
      (Except.ok (Json.stringify (Json.obj
        [("success", Json.bool false),
         ("message", Json.str ("Error editing document: HTML validation failed: " ++ perr))])),
       st, ⟨clock, orc⟩) ∧
    ("Error editing document: HTML validation failed: " ++ perr) ≠ "" := by
  constructor
  · have hedit : editHtmlWithLLM dmp parse doc.content args.editDescription
        ⟨clock, Except.ok resp :: orc⟩ =
        (Except.error ("HTML validation failed: " ++ perr), ⟨clock, orc⟩) := by
      simp only [editHtmlWithLLM, takeLlm]
      simp only [validateHtml, hpatched, hraw]
      rfl
    show (match htmlDocumentStorage.get st args.documentId with
      | none => _
      | some existingDoc => _) = _
    rw [hdoc]
    show (match editHtmlWithLLM dmp parse doc.content args.editDescription
        ⟨clock, Except.ok resp :: orc⟩ with
      | (Except.error emsg, w1) => _
      | (Except.ok (updatedHtml, _patch), w1) => _) = _
    rw [hedit]
    rfl
  · intro h
    have h0 : ("Error editing document: HTML validation failed: " ++ perr).length = 0 := by
      rw [h]
      rfl
    rw [String.length_append] at h0
    have h1 : 0 < ("Error editing document: HTML validation failed: ").length := by decide
    omega

/-- C5 (witness): the theorem applied to a concrete store holding one
document, a parser rejecting everything with message "bad html", and a
provider response "Hi". -/
theorem edit_html_document_soft_failure_witness :
    executeTool ⟨fun _ b => b, fun _ q => q⟩ (fun _ => some "bad html")
      "edit_html_document" ⟨"", Json.null, "", "doc-0", "make it red", ""⟩
      ⟨[], [], [⟨"doc-0", "old", 0, 0⟩], [⟨"doc-0", "old", 0, 0⟩]⟩
      ⟨[7], [Except.ok "Hi"]⟩ =
      (Except.ok (Json.stringify (Json.obj
        [("success", Json.bool false),
         ("message", Json.str "Error editing document: HTML validation failed: bad html")])),
       ⟨[], [], [⟨"doc-0", "old", 0, 0⟩], [⟨"doc-0", "old", 0, 0⟩]⟩, ⟨[7], []⟩) ∧
    ("Error editing document: HTML validation failed: bad html" : String) ≠ "" :=
  edit_html_document_soft_failure_on_invalid_html ⟨fun _ b => b, fun _ q => q⟩
    (fun _ => some "bad html") ⟨"", Json.null, "", "doc-0", "make it red", ""⟩
    ⟨[], [], [⟨"doc-0", "old", 0, 0⟩], [⟨"doc-0", "old", 0, 0⟩]⟩ [7] "Hi" []
    ⟨"doc-0", "old", 0, 0⟩ "bad html" "bad html" rfl rfl rfl

/-- C6: the recorded cost of a model call with p prompt tokens and c
completion tokens equals p times the input price plus c times the
output price, each per million tokens, rounded to six decimals; the
aggregate totalCost is exactly the sum of the per-call costs (the
final toFixed(6) pass is the identity on a sum of six-decimal values);
and the documented scenario — calls (1000, 500) and (200, 100) under
the gpt-4o-mini prices 0.15 and 0.60 per million — yields the per-call
costs 0.00045 and 0.00009 and the total 0.00054. -/
theorem costLedger_formula_and_scenario :
    (∀ (pricing : Pricing) (p c : Nat), callCost pricing ⟨p, c⟩ =
      round6 ((p : ℚ) * pricing.input / 1000000 + (c : ℚ) * pricing.output / 1000000)) ∧
    (∀ (pricing : Pricing) (n : Nat) (usages : List Usage),
      totalCost (trackCalls pricing n usages) =
        (trackCalls pricing n usages).foldl (fun sum call => sum + call.cost) 0) ∧
    (trackCalls modelPricing 0 [⟨1000, 500⟩, ⟨200, 100⟩]).map CallCost.cost =
      [0.00045, 0.00009] ∧
    totalCost (trackCalls modelPricing 0 [⟨1000, 500⟩, ⟨200, 100⟩]) = 0.00054 :=
  ⟨callCost_formula, totalCost_eq_sum, trackCalls_scenario_costs, totalCost_scenario⟩

/-- C7: for an incoming transcript of exactly one user message, the
transcript sent on the first model call is exactly one system message,
one fabricated assistant turn calling read_business_profile, the
matching tool-result turn carrying the serialized business profile,
and then the user message — in that order; for an incoming transcript
of any other shape, no such synthesized turns are injected (only the
system message is prepended to the mapped incoming messages). -/
theorem runAgent_initial_transcript_shape (messages : List InputMsg) :
    (∀ c, messages = [⟨Role.user, c⟩] →
      runAgentInitialMessages messages =
        [⟨Role.system, some systemInstruction, [], none⟩,
         ⟨Role.assistant, none,
          [⟨"call_init_business_profile", "read_business_profile", "\x7b\x7d"⟩], none⟩,
         ⟨Role.tool, some (Json.stringify businessProfile), [],
          some "call_init_business_profile"⟩,
         ⟨Role.user, some c, [], none⟩]) ∧
    ((∀ c, messages ≠ [⟨Role.user, c⟩]) →
      runAgentInitialMessages messages =
        ⟨Role.system, some systemInstruction, [], none⟩ :: messages.map inputToChat) := by
  constructor
  · intro c h
    subst h
    rfl
  · intro hne
    rcases messages with _ | ⟨m, _ | ⟨m2, rest⟩⟩
    · rfl
    · rcases m with ⟨role, content⟩
      cases role
      · rfl
      · exact absurd rfl (hne content)
      · rfl
      · rfl
    · rfl

/-- C7 (witness): the theorem applied to the single user message of the
documented scenario and to the empty transcript. -/
theorem runAgent_initial_transcript_shape_witness :
    runAgentInitialMessages [⟨Role.user, "What is the business profile?"⟩] =
      [⟨Role.system, some systemInstruction, [], none⟩,
       ⟨Role.assistant, none,
        [⟨"call_init_business_profile", "read_business_profile", "\x7b\x7d"⟩], none⟩,
       ⟨Role.tool, some (Json.stringify businessProfile), [],
        some "call_init_business_profile"⟩,
       ⟨Role.user, some "What is the business profile?", [], none⟩] ∧
    runAgentInitialMessages [] =
      ⟨Role.system, some systemInstruction, [], none⟩ :: ([] : List InputMsg).map inputToChat :=
  ⟨(runAgent_initial_transcript_shape _).1 "What is the business profile?" rfl,
   (runAgent_initial_transcript_shape _).2 (fun _ h => List.noConfusion h)⟩

/-- C8 (counterexample): when a document with the same time-derived
identifier is already in the store, get(id) immediately after
create(c) returns the older stale document, whose content differs from
the created content — Array.find returns the first match. -/
theorem htmlDocumentStorage_create_get_stale_on_collision :
    (htmlDocumentStorage.create "new"
      ⟨[], [], [⟨"doc-0", "old", 0, 0⟩], [⟨"doc-0", "old", 0, 0⟩]⟩ ⟨[0, 0, 0], []⟩).1.id =
      "doc-0" ∧
    htmlDocumentStorage.get
      (htmlDocumentStorage.create "new"
        ⟨[], [], [⟨"doc-0", "old", 0, 0⟩], [⟨"doc-0", "old", 0, 0⟩]⟩ ⟨[0, 0, 0], []⟩).2.1
      "doc-0" = some ⟨"doc-0", "old", 0, 0⟩ ∧
    "old" ≠ "new" :=
  ⟨rfl, rfl, fun h => by simp at h⟩

/-- C8 (amended): provided no already-stored document carries the
time-derived identifier and the clock does not advance between the two
`new Date()` samples of the create call, get(id) immediately after
create(c) returns the created document, whose content is exactly c and
whose createdAt equals its updatedAt. -/
theorem htmlDocumentStorage_create_get_roundtrip (c : String) (st : Store)
    (t1 t2 t3 : Nat) (ts : List Nat) (orc : List (Except String String))
    (hfresh : ∀ d ∈ st.htmlDocuments, d.id ≠ "doc-" ++ toString t1)
    (hsame : t2 = t3) :
    htmlDocumentStorage.get
        (htmlDocumentStorage.create c st ⟨t1 :: t2 :: t3 :: ts, orc⟩).2.1
        (htmlDocumentStorage.create c st ⟨t1 :: t2 :: t3 :: ts, orc⟩).1.id
      = some (htmlDocumentStorage.create c st ⟨t1 :: t2 :: t3 :: ts, orc⟩).1 ∧
    (htmlDocumentStorage.create c st ⟨t1 :: t2 :: t3 :: ts, orc⟩).1.content = c ∧
    (htmlDocumentStorage.create c st ⟨t1 :: t2 :: t3 :: ts, orc⟩).1.createdAt =
      (htmlDocumentStorage.create c st ⟨t1 :: t2 :: t3 :: ts, orc⟩).1.updatedAt := by
  have hd : (htmlDocumentStorage.create c st ⟨t1 :: t2 :: t3 :: ts, orc⟩).1 =
      ⟨"doc-" ++ toString t1, c, t2, t3⟩ := rfl
  have hdocs : (htmlDocumentStorage.create c st ⟨t1 :: t2 :: t3 :: ts, orc⟩).2.1.htmlDocuments =
      st.htmlDocuments ++ [⟨"doc-" ++ toString t1, c, t2, t3⟩] := rfl
  refine ⟨?_, by rw [hd], by rw [hd]; exact hsame⟩
  rw [htmlDocumentStorage.get, hdocs, hd, List.find?_append]
  have hnone : st.htmlDocuments.find?
      (fun doc => doc.id == (⟨"doc-" ++ toString t1, c, t2, t3⟩ : HtmlDocument).id) = none := by
    rw [List.find?_eq_none]
    intro d hdm
    simpa using hfresh d hdm
  rw [hnone]
  simp [List.find?_singleton]

/-- C8 (witness): the amended theorem applied to the empty store with
all three clock samples at millisecond 5. -/
theorem htmlDocumentStorage_create_get_roundtrip_witness :
    htmlDocumentStorage.get
        (htmlDocumentStorage.create "x" ⟨[], [], [], []⟩ ⟨[5, 5, 5], []⟩).2.1
        (htmlDocumentStorage.create "x" ⟨[], [], [], []⟩ ⟨[5, 5, 5], []⟩).1.id
      = some (htmlDocumentStorage.create "x" ⟨[], [], [], []⟩ ⟨[5, 5, 5], []⟩).1 ∧
    (htmlDocumentStorage.create "x" ⟨[], [], [], []⟩ ⟨[5, 5, 5], []⟩).1.content = "x" ∧
    (htmlDocumentStorage.create "x" ⟨[], [], [], []⟩ ⟨[5, 5, 5], []⟩).1.createdAt =
      (htmlDocumentStorage.create "x" ⟨[], [], [], []⟩ ⟨[5, 5, 5], []⟩).1.updatedAt :=
  htmlDocumentStorage_create_get_roundtrip "x" ⟨[], [], [], []⟩ 5 5 5 [] []
    (fun d hd => absurd hd (List.not_mem_nil d)) rfl

/-- C9 (counterexample): an update performed in the same clock
millisecond as the previous update leaves updatedAt equal to — not
strictly later than — the document's previous updatedAt. -/
theorem htmlDocumentStorage_update_same_millisecond_not_later :
    (htmlDocumentStorage.update
      ⟨[], [], [⟨"doc-0", "a", 0, 0⟩], [⟨"doc-0", "a", 0, 0⟩]⟩ "doc-0" "b" ⟨[0], []⟩).1 =
      some ⟨"doc-0", "b", 0, 0⟩ ∧
    ¬ ((⟨"doc-0", "b", 0, 0⟩ : HtmlDocument).updatedAt >
        (⟨"doc-0", "a", 0, 0⟩ : HtmlDocument).updatedAt) :=
  ⟨rfl, by decide⟩

/-- C9 (amended): update(id, c2) on an existing document sets its
content to c2 and its updatedAt to the current clock time, which is
strictly later than the previous updatedAt whenever the clock has
strictly advanced past it (not guaranteed within one millisecond); and
update on a nonexistent id returns null leaving the store — documents
and persisted file included — and the environment unchanged. -/
theorem htmlDocumentStorage_update_content_and_absent_id (st : Store) (id c2 : String)
    (t : Nat) (ts : List Nat) (orc : List (Except String String)) :
    (∀ doc, htmlDocumentStorage.get st id = some doc → doc.updatedAt < t →
      ∃ d', (htmlDocumentStorage.update st id c2 ⟨t :: ts, orc⟩).1 = some d' ∧
        d'.content = c2 ∧ d'.updatedAt = t ∧ doc.updatedAt < d'.updatedAt) ∧
    (htmlDocumentStorage.get st id = none →
      htmlDocumentStorage.update st id c2 ⟨t :: ts, orc⟩ = (none, st, ⟨t :: ts, orc⟩)) := by
  constructor
  · intro doc hget hlt
    rw [htmlDocumentStorage.get] at hget
    refine ⟨⟨doc.id, c2, doc.createdAt, t⟩, ?_, rfl, rfl, hlt⟩
    rw [htmlDocumentStorage.update, hget]
    have := updateFirstDoc_of_find st.htmlDocuments id c2 t doc hget
    simp only [takeTime]
    simpa using this
  · intro hget
    rw [htmlDocumentStorage.get] at hget
    rw [htmlDocumentStorage.update, hget]

/-- C9 (witness): the amended theorem applied once to a store holding a
document last updated at millisecond 0 with the clock at millisecond 1,
and once to the same store with an absent identifier. -/
theorem htmlDocumentStorage_update_content_and_absent_id_witness :
    (∃ d', (htmlDocumentStorage.update
        ⟨[], [], [⟨"doc-0", "a", 0, 0⟩], [⟨"doc-0", "a", 0, 0⟩]⟩ "doc-0" "b"
        ⟨[1], []⟩).1 = some d' ∧
      d'.content = "b" ∧ d'.updatedAt = 1 ∧
      (⟨"doc-0", "a", 0, 0⟩ : HtmlDocument).updatedAt < d'.updatedAt) ∧
    htmlDocumentStorage.update
        ⟨[], [], [⟨"doc-0", "a", 0, 0⟩], [⟨"doc-0", "a", 0, 0⟩]⟩ "doc-9" "b" ⟨[1], []⟩ =
      (none, ⟨[], [], [⟨"doc-0", "a", 0, 0⟩], [⟨"doc-0", "a", 0, 0⟩]⟩, ⟨[1], []⟩) :=
  ⟨(htmlDocumentStorage_update_content_and_absent_id
      ⟨[], [], [⟨"doc-0", "a", 0, 0⟩], [⟨"doc-0", "a", 0, 0⟩]⟩ "doc-0" "b" 1 [] []).1
      ⟨"doc-0", "a", 0, 0⟩ rfl (by decide),
   (htmlDocumentStorage_update_content_and_absent_id
      ⟨[], [], [⟨"doc-0", "a", 0, 0⟩], [⟨"doc-0", "a", 0, 0⟩]⟩ "doc-9" "b" 1 [] []).2 rfl⟩

/-- C10: if any requested tool call of one batch carries an arguments
string rejected by JSON.parse, and every earlier call of the batch
completed, then the whole tool-execution loop of runAgent raises that
parse error — the batch yields no list of tool-result turns at all, so
nothing is appended to the transcript and the request aborts. -/
theorem runAgent_malformed_tool_arguments_abort (dmp : DiffMatchPatch)
    (parse : String → Option String) (jsonParse : String → Except String Json)
    (pre : List ToolCall) (tc : ToolCall) (rest : List ToolCall) (st : Store) (w : World)
    (docId : Option Json) (msgs : List ChatMsg) (docId1 : Option Json) (st1 : Store)
    (w1 : World) (e : String)
    (hpre : processToolCalls dmp parse jsonParse pre st w docId =
      (.ok (msgs, docId1), st1, w1))
    (hbad : jsonParse tc.arguments = .error e) :
    processToolCalls dmp parse jsonParse (pre ++ tc :: rest) st w docId =
      (.error e, st1, w1) := by
  induction pre generalizing st w docId msgs docId1 st1 w1 with
  | nil =>
    simp only [processToolCalls, Prod.mk.injEq, Except.ok.injEq] at hpre
    obtain ⟨⟨hmsgs, hdoc⟩, hst, hw⟩ := hpre
    subst hdoc hst hw
    simp only [List.nil_append, processToolCalls, hbad]
  | cons p ps ih =>
    rw [List.cons_append]
    rw [processToolCalls] at hpre ⊢
    rcases hjp : jsonParse p.arguments with e' | aj
    · rw [hjp] at hpre
      simp at hpre
    · rw [hjp] at hpre
      dsimp only at hpre ⊢
      rcases hex : executeTool dmp parse p.name (argsOfJson aj) st w with ⟨r, st2, w2⟩
      rw [hex] at hpre
      rcases r with e' | result
      · simp at hpre
      · dsimp only at hpre ⊢
        rcases hrec : processToolCalls dmp parse jsonParse ps st2 w2
            (extractDocumentId jsonParse p.name result docId) with ⟨rr, st3, w3⟩
        rw [hrec] at hpre
        rcases rr with e' | ⟨msgs2, docId2⟩
        · simp at hpre
        · simp only [Prod.mk.injEq, Except.ok.injEq] at hpre
          obtain ⟨⟨hmsgs, hdoc⟩, hst, hw⟩ := hpre
          subst hst hw
          rw [ih st2 w2 _ msgs2 docId2 st3 w3 hrec]

/-- C10 (witness): the theorem applied to a batch whose only tool call
carries an unparseable arguments string. -/
theorem runAgent_malformed_tool_arguments_abort_witness :
    processToolCalls ⟨fun _ b => b, fun _ q => q⟩ (fun _ => none)
      (fun s => Except.error ("Unexpected token " ++ s))
      [⟨"call_1", "write_long_term_memory", "not json"⟩]
      ⟨[], [], [], []⟩ ⟨[], []⟩ none =
      (Except.error ("Unexpected token not json"), ⟨[], [], [], []⟩, ⟨[], []⟩) :=
  runAgent_malformed_tool_arguments_abort ⟨fun _ b => b, fun _ q => q⟩ (fun _ => none)
    (fun s => Except.error ("Unexpected token " ++ s)) []
    ⟨"call_1", "write_long_term_memory", "not json"⟩ [] ⟨[], [], [], []⟩ ⟨[], []⟩
    none [] none ⟨[], [], [], []⟩ ⟨[], []⟩ ("Unexpected token " ++ "not json") rfl rfl
